import Mathlib

/-!
Verification of the inventory ledger / reconciliation core of the
`node-typescript-supabase` school supply-chain tracker.

The embedding below translates, into Lean:

* the ledger data model (`inventory_transactions`, `inventory_items`,
  `class_inventory_distributions`, `student_inventory_log`) from the SQL
  schema in the table-creation script;
* the Stock Aggregator (`InventoryService.getInventorySummary` /
  `calculateInventorySummary` / `getLowStockItems` in
  `src/services/inventoryService.ts`) together with the SQL
  `low_stock_items` view it reads;
* the Collection Aggregator (`InventoryService.getDistributionSummary`);
* the HTTP write handlers of `src/routes/inventory_summary.ts`:
  `POST /` (direct transaction creation), `PUT /:id` (transaction update),
  `POST /distributions` (the Distribution Coordinator's create path) and
  `PUT /distributions/:id` (its update path).

Modelling conventions:
* SQL `numeric(12,2)` quantities and costs are modelled as `Int` (no claim
  involves fractional arithmetic); SQL `NULL` is `Option.none`;
  timestamps are `Nat`.
* JavaScript `x || 0` on a possibly-missing number is `orZero`;
  JavaScript truthiness of an optional string is `strTruthy`; the
  JavaScript falsiness test `!body.q` on a number is `intFalsy`.
* The database is a `DB` value holding the four tables as lists in
  insertion order; a supabase `insert` appends, an `update ... eq`
  maps over the list.  External storage failures are not modelled: an
  insert or update that the handler reaches always succeeds, and the
  HTTP status recorded in the outcome is the one the handler sends on
  that path.
* The JS aggregation object (`Record<string, DistributionSummary>`,
  whose string keys iterate in insertion order) is an association list
  in insertion order.
-/

/-- Ledger-row status, from the SQL check constraint
`status in ('pending','cancelled','deleted','completed')`. -/
inductive TxStatus where
  | pending
  | cancelled
  | deleted
  | completed
deriving DecidableEq, Repr

instance : BEq TxStatus := ⟨fun a b => decide (a = b)⟩

instance : LawfulBEq TxStatus where
  eq_of_beq h := of_decide_eq_true h
  rfl := by intro a; simp [BEq.beq]

/-- One `inventory_transactions` row (a LedgerEntry). -/
structure Transaction where
  id : Nat
  item_id : String
  transaction_type : String
  qty_in : Option Int
  qty_out : Option Int
  in_cost : Option Int
  out_cost : Option Int
  status : TxStatus
  distribution_id : Option Nat
  transaction_date : Nat
deriving DecidableEq, Repr

/-- One `inventory_items` row (only the fields the ledger core reads).
`low_stock_threshold` is nullable in SQL (`INTEGER DEFAULT 0`). -/
structure Item where
  id : String
  name : String
  low_stock_threshold : Option Int
deriving DecidableEq, Repr

/-- One `class_inventory_distributions` row. -/
structure Distribution where
  id : Nat
  class_id : String
  inventory_item_id : String
  session_term_id : String
  distributed_quantity : Int
  distribution_date : Nat
  received_by : Option String
  created_by : String
deriving DecidableEq, Repr

/-- One `student_inventory_log` row. -/
structure StudentLog where
  student_id : String
  class_id : String
  session_term_id : String
  inventory_item_id : String
  qty : Int
  received : Bool
  given_by : Option String
deriving DecidableEq, Repr

/-- The backing store: the four tables, rows in insertion order. -/
structure DB where
  items : List Item
  transactions : List Transaction
  distributions : List Distribution
  studentLogs : List StudentLog
deriving DecidableEq, Repr

/-- JavaScript `x || 0` / `x ?? 0` on a nullable number: both send a
missing value to `0`, and `|| 0` additionally sends `0` to `0`, so on
integers the two coincide. -/
def orZero : Option Int → Int
  | none => 0
  | some v => v

/-- JavaScript truthiness of an optional string field (`!body.f` fails
for a present, non-empty string). -/
def strTruthy : Option String → Bool
  | none => false
  | some s => !(s == "")

/-- JavaScript falsiness `!body.q` of an optional number: true when the
field is absent or `0`. -/
def intFalsy : Option Int → Bool
  | none => true
  | some v => v == 0

/-- `opt.getD ""`: the string a validated optional field carries. -/
def strVal (o : Option String) : String := o.getD ""

/-- The summary record produced by `calculateInventorySummary`.  The
item-detail enrichment fields (`sku`, category/brand/uom names) carry no
ledger content and are omitted. -/
structure InventorySummary where
  id : String
  name : String
  current_stock : Int
  total_in_quantity : Int
  total_out_quantity : Int
  total_in_cost : Int
  total_out_cost : Int
  low_stock_threshold : Int
  is_low_stock : Bool
  last_transaction_date : Option Nat
  last_purchase_date : Option Nat
  last_sale_date : Option Nat
deriving DecidableEq, Repr

/-- `transactions.reduce((sum, t) => sum + (f(t) || 0), 0)`. -/
def reduceSum (f : Transaction → Option Int) (l : List Transaction) : Int :=
  l.foldl (fun sum t => sum + orZero (f t)) 0

/-- The maximum `transaction_date` of a list of rows (the source sorts
descending by date and takes the head; only the date value is used, and
it equals the maximum). -/
def maxDate (l : List Transaction) : Option Nat :=
  l.foldl
    (fun acc t =>
      match acc with
      | none => some t.transaction_date
      | some d => some (max d t.transaction_date))
    none

/-- `InventoryService.calculateInventorySummary(itemData, transactions)`:
fold the given rows into quantity/cost totals, derive
`current_stock = totalIn − totalOut`, default the threshold with `|| 0`,
and flag low stock when `current_stock <= threshold`. -/
def calculateInventorySummary (itemData : Item) (transactions : List Transaction) :
    InventorySummary :=
  let totalInQuantity := reduceSum (fun t => t.qty_in) transactions
  let totalOutQuantity := reduceSum (fun t => t.qty_out) transactions
  let totalInCost := reduceSum (fun t => t.in_cost) transactions
  let totalOutCost := reduceSum (fun t => t.out_cost) transactions
  let currentStock := totalInQuantity - totalOutQuantity
  let lowStockThreshold := orZero itemData.low_stock_threshold
  let isLowStock := decide (currentStock ≤ lowStockThreshold)
  { id := itemData.id
    name := itemData.name
    current_stock := currentStock
    total_in_quantity := totalInQuantity
    total_out_quantity := totalOutQuantity
    total_in_cost := totalInCost
    total_out_cost := totalOutCost
    low_stock_threshold := lowStockThreshold
    is_low_stock := isLowStock
    last_transaction_date := maxDate transactions
    last_purchase_date := maxDate (transactions.filter (fun t => t.transaction_type == "purchase"))
    last_sale_date := maxDate (transactions.filter (fun t => t.transaction_type == "sale")) }

/-- The rows the Stock Aggregator fetches for an item: the supabase query
`.eq("item_id", inventoryId).eq("status", "completed")`. -/
def completedFor (db : DB) (inventoryId : String) : List Transaction :=
  db.transactions.filter (fun t => t.item_id == inventoryId && t.status == TxStatus.completed)

/-- `InventoryService.getInventorySummary(inventoryId)`: look the item up
(`null` when absent), fetch its completed rows, and aggregate. -/
def getInventorySummary (db : DB) (inventoryId : String) : Option InventorySummary :=
  (db.items.find? (fun i => i.id == inventoryId)).map
    (fun item => calculateInventorySummary item (completedFor db inventoryId))

/-- SQL `SUM` over a nullable column: `NULL` values are skipped, and the
result is `NULL` when no non-null value exists (in particular over the
empty row set). -/
def sqlSum (l : List (Option Int)) : Option Int :=
  match l.filterMap id with
  | [] => none
  | vs => some vs.sum

/-- The ledger rows the `low_stock_items` view joins to an item:
`inventory_transactions t ON t.item_id = i.id AND t.status <> 'pending'`. -/
def nonPendingFor (db : DB) (inventoryId : String) : List Transaction :=
  db.transactions.filter (fun t => t.item_id == inventoryId && !(t.status == TxStatus.pending))

/-- The view's stock expression
`COALESCE(SUM(t.qty_in) - SUM(t.qty_out), 0)`: the difference is `NULL`
(hence coalesced to `0`) as soon as either `SUM` is. -/
def viewCurrentStock (rows : List Transaction) : Int :=
  match sqlSum (rows.map (fun t => t.qty_in)), sqlSum (rows.map (fun t => t.qty_out)) with
  | some a, some b => a - b
  | _, _ => 0

/-- The `low_stock_items` SQL view: items whose non-pending stock
satisfies the `HAVING` clause
`COALESCE(SUM(t.qty_in) - SUM(t.qty_out), 0) <= i.low_stock_threshold`.
A `NULL` threshold makes the comparison unknown, excluding the row. -/
def low_stock_items (db : DB) : List Item :=
  db.items.filter (fun i =>
    match i.low_stock_threshold with
    | none => false
    | some th => decide (viewCurrentStock (nonPendingFor db i.id) ≤ th))

/-- `InventoryService.getLowStockItems()` (the variant in
`src/services/inventoryService.ts`): read the pre-selected view rows,
then re-derive each item's summary through `getInventorySummary` and keep
those with `is_low_stock`. -/
def getLowStockItems (db : DB) : List InventorySummary :=
  (low_stock_items db).filterMap (fun i =>
    match getInventorySummary db i.id with
    | some summary => if summary.is_low_stock then some summary else none
    | none => none)

/-- The optional filters accepted by `getDistributionSummary`. -/
structure Filters where
  inventory_item_id : Option String
  class_id : Option String
  session_term_id : Option String
  teacher_id : Option String
deriving DecidableEq, Repr

/-- The filters applied to `class_inventory_distributions`:
each present filter adds a supabase `.eq`, the teacher filter matching
`received_by`. -/
def distMatches (f : Filters) (d : Distribution) : Bool :=
  (match f.inventory_item_id with
   | none => true
   | some v => d.inventory_item_id == v) &&
  (match f.class_id with
   | none => true
   | some v => d.class_id == v) &&
  (match f.session_term_id with
   | none => true
   | some v => d.session_term_id == v) &&
  (match f.teacher_id with
   | none => true
   | some v => d.received_by == some v)

/-- The filters applied to `student_inventory_log`:
`.eq("received", true)` always, plus the optional filters, the teacher
filter matching `given_by`. -/
def logMatches (f : Filters) (l : StudentLog) : Bool :=
  l.received == true &&
  (match f.inventory_item_id with
   | none => true
   | some v => l.inventory_item_id == v) &&
  (match f.class_id with
   | none => true
   | some v => l.class_id == v) &&
  (match f.session_term_id with
   | none => true
   | some v => l.session_term_id == v) &&
  (match f.teacher_id with
   | none => true
   | some v => l.given_by == some v)

/-- One entry of the summary map built by `getDistributionSummary`.
Note the source accumulates the class distributions' quantities into
`total_received_quantity` and the student collections' quantities into
`total_distributed_quantity` (the names are crossed); this embedding
keeps the source's field names.  The item-detail enrichment
(`inventory_items`, `item_name`) carries no quantity content and is
omitted. -/
structure DistributionSummary where
  inventory_item_id : String
  total_received_quantity : Int
  total_distributed_quantity : Int
  balance_quantity : Int
  last_distribution_date : Option Nat
deriving DecidableEq, Repr

/-- The zero entry `summaryMap[key]` is initialised to. -/
def freshEntry (key : String) : DistributionSummary :=
  { inventory_item_id := key
    total_received_quantity := 0
    total_distributed_quantity := 0
    balance_quantity := 0
    last_distribution_date := none }

/-- The body of the class-distribution loop on an entry already keyed to
the row's item: `total_received_quantity += dist.distributed_quantity || 0`
and the `last_distribution_date` update (replace when absent or strictly
older). -/
def addDist (s : DistributionSummary) (d : Distribution) : DistributionSummary :=
  { s with
    total_received_quantity := s.total_received_quantity + d.distributed_quantity
    last_distribution_date :=
      match s.last_distribution_date with
      | none => some d.distribution_date
      | some prev => if prev < d.distribution_date then some d.distribution_date else some prev }

/-- The body of the student-log loop on an entry already keyed to the
row's item: `total_distributed_quantity += log.qty || 0`. -/
def addLog (s : DistributionSummary) (l : StudentLog) : DistributionSummary :=
  { s with total_distributed_quantity := s.total_distributed_quantity + l.qty }

/-- Whether `summaryMap` already has an entry for `key`. -/
def hasKey (acc : List DistributionSummary) (key : String) : Bool :=
  acc.any (fun s => s.inventory_item_id == key)

/-- `if (!summaryMap[key]) summaryMap[key] = {...zeros}`: JS object keys
(UUID strings) iterate in insertion order, so a new key is appended. -/
def ensureKey (acc : List DistributionSummary) (key : String) : List DistributionSummary :=
  if hasKey acc key then acc else acc ++ [freshEntry key]

/-- One iteration of the class-distribution loop. -/
def stepDist (acc : List DistributionSummary) (d : Distribution) : List DistributionSummary :=
  (ensureKey acc d.inventory_item_id).map
    (fun s => if s.inventory_item_id == d.inventory_item_id then addDist s d else s)

/-- One iteration of the student-log loop. -/
def stepLog (acc : List DistributionSummary) (l : StudentLog) : List DistributionSummary :=
  (ensureKey acc l.inventory_item_id).map
    (fun s => if s.inventory_item_id == l.inventory_item_id then addLog s l else s)

/-- The final pass:
`item.balance_quantity = item.total_received_quantity - item.total_distributed_quantity`. -/
def computeBalance (acc : List DistributionSummary) : List DistributionSummary :=
  acc.map (fun s =>
    { s with balance_quantity := s.total_received_quantity - s.total_distributed_quantity })

/-- `InventoryService.getDistributionSummary(filters)` (in the service
file holding the Collection Aggregator): query the filtered
class-distribution rows and the filtered received student-log rows,
fold both into the keyed summary map, then compute each balance and
return the map's values. -/
def getDistributionSummary (f : Filters) (dists : List Distribution)
    (logs : List StudentLog) : List DistributionSummary :=
  let distributions := dists.filter (distMatches f)
  let received := logs.filter (logMatches f)
  computeBalance (received.foldl stepLog (distributions.foldl stepDist []))


/-- The request body of `POST /` (direct transaction creation).  `none`
is an absent JSON field. -/
structure TxBody where
  item_id : Option String
  transaction_type : Option String
  qty_in : Option Int
  qty_out : Option Int
  in_cost : Option Int
  out_cost : Option Int
  status : Option TxStatus
  distribution_id : Option Nat
  transaction_date : Option Nat
deriving DecidableEq, Repr

/-- A handler outcome: the HTTP status sent and the resulting store. -/
structure Outcome where
  status : Nat
  db : DB
deriving DecidableEq, Repr

/-- The stock value the sale / distribution checks read:
`inventorySummary?.current_stock || 0` (resp. `?? 0`) — `0` when the
item does not exist, the derived completed-rows stock otherwise. -/
def stockOf (db : DB) (inventoryId : String) : Int :=
  match getInventorySummary db inventoryId with
  | none => 0
  | some s => s.current_stock

/-- The row `POST /` inserts: the body spread over the table's column
defaults (`qty_in`/`qty_out`/costs default `0`, `status` defaults
`'pending'`, `transaction_date` defaults `now()`). -/
def mkTransaction (body : TxBody) (newId : Nat) (now : Nat) : Transaction :=
  { id := newId
    item_id := strVal body.item_id
    transaction_type := (body.transaction_type).getD ""
    qty_in := some (orZero body.qty_in)
    qty_out := some (orZero body.qty_out)
    in_cost := some (orZero body.in_cost)
    out_cost := some (orZero body.out_cost)
    status := (body.status).getD TxStatus.pending
    distribution_id := body.distribution_id
    transaction_date := (body.transaction_date).getD now }

/-- The `POST /` handler on `inventory_transactions`
(`src/routes/inventory_summary.ts`): required-field and type checks,
`qty_out` validation and the stock-sufficiency check for sales,
`qty_in` validation for purchases, the both-positive rejection, then the
insert. -/
def postTransaction (db : DB) (body : TxBody) (newId : Nat) (now : Nat) : Outcome :=
  if !(strTruthy body.item_id) || !(strTruthy body.transaction_type) then
    { status := 400, db := db }
  else if !(body.transaction_type == some "purchase" || body.transaction_type == some "sale") then
    { status := 400, db := db }
  else if body.transaction_type == some "sale" &&
      (intFalsy body.qty_out || decide (orZero body.qty_out ≤ 0)) then
    { status := 400, db := db }
  else if body.transaction_type == some "sale" &&
      decide (stockOf db (strVal body.item_id) < orZero body.qty_out) then
    { status := 400, db := db }
  else if body.transaction_type == some "purchase" &&
      (intFalsy body.qty_in || decide (orZero body.qty_in ≤ 0)) then
    { status := 400, db := db }
  else if decide (0 < orZero body.qty_in) && decide (0 < orZero body.qty_out) then
    { status := 400, db := db }
  else
    { status := 201
      db := { db with transactions := db.transactions ++ [mkTransaction body newId now] } }

/-- The request body of `PUT /:id` (transaction update): present fields
overwrite the row's columns, absent fields leave them unchanged. -/
structure TxUpdateBody where
  qty_in : Option Int
  qty_out : Option Int
  in_cost : Option Int
  out_cost : Option Int
  status : Option TxStatus
  transaction_date : Option Nat
deriving DecidableEq, Repr

/-- `update({ ...body })` applied to one row. -/
def applyTxUpdate (t : Transaction) (body : TxUpdateBody) : Transaction :=
  { t with
    qty_in := match body.qty_in with | none => t.qty_in | some v => some v
    qty_out := match body.qty_out with | none => t.qty_out | some v => some v
    in_cost := match body.in_cost with | none => t.in_cost | some v => some v
    out_cost := match body.out_cost with | none => t.out_cost | some v => some v
    status := match body.status with | none => t.status | some v => v
    transaction_date := match body.transaction_date with
      | none => t.transaction_date
      | some v => v }

/-- The `PUT /:id` handler on `inventory_transactions`: update the row
matched by id with the body as given — no validation of any kind — and
404 (via `.single()`) when no row matches. -/
def putTransaction (db : DB) (id : Nat) (body : TxUpdateBody) : Outcome :=
  if db.transactions.any (fun t => t.id == id) then
    { status := 200
      db := { db with
        transactions := db.transactions.map
          (fun t => if t.id == id then applyTxUpdate t body else t) } }
  else
    { status := 404, db := db }

/-- The request body of `POST /distributions`. -/
structure DistBody where
  class_id : Option String
  inventory_item_id : Option String
  session_term_id : Option String
  distributed_quantity : Option Int
  received_by : Option String
  out_cost : Option Int
  distribution_date : Option Nat
  created_by : Option String
deriving DecidableEq, Repr

/-- An outcome that also reports the created Distribution row, as the
201 response body does. -/
structure DistOutcome where
  status : Nat
  db : DB
  created : Option Distribution
deriving DecidableEq, Repr

/-- The `class_inventory_distributions` row `POST /distributions`
inserts (`insertData`), with
`distribution_date: body.distribution_date || now`. -/
def mkDistribution (body : DistBody) (newDistId : Nat) (now : Nat) : Distribution :=
  { id := newDistId
    class_id := strVal body.class_id
    inventory_item_id := strVal body.inventory_item_id
    session_term_id := strVal body.session_term_id
    distributed_quantity := orZero body.distributed_quantity
    distribution_date := (body.distribution_date).getD now
    received_by := body.received_by
    created_by := strVal body.created_by }

/-- The paired ledger row `POST /distributions` inserts: kind
`distribution`, status `completed`, `qty_out` the distributed quantity,
`out_cost: insertData?.out_cost || 0`, linked by `distribution_id`. -/
def mkDistTransaction (body : DistBody) (newDistId newTxId : Nat) (now : Nat) : Transaction :=
  { id := newTxId
    item_id := strVal body.inventory_item_id
    transaction_type := "distribution"
    qty_in := some 0
    qty_out := some (orZero body.distributed_quantity)
    in_cost := some 0
    out_cost := some (orZero body.out_cost)
    status := TxStatus.completed
    distribution_id := some newDistId
    transaction_date := (body.distribution_date).getD now }

/-- The `POST /distributions` handler (the Distribution Coordinator's
create path): required-field check, positivity check, the
stock-sufficiency check
`(inventorySummary?.current_stock ?? 0) < distributed_quantity`,
then the two inserts (Distribution row, paired ledger row). -/
def postDistribution (db : DB) (body : DistBody) (newDistId newTxId : Nat) (now : Nat) :
    DistOutcome :=
  if !(strTruthy body.class_id) || !(strTruthy body.inventory_item_id) ||
      !(strTruthy body.session_term_id) || intFalsy body.distributed_quantity ||
      !(strTruthy body.received_by) then
    { status := 400, db := db, created := none }
  else if decide (orZero body.distributed_quantity ≤ 0) then
    { status := 400, db := db, created := none }
  else if decide (stockOf db (strVal body.inventory_item_id) < orZero body.distributed_quantity) then
    { status := 400, db := db, created := none }
  else
    let newDist := mkDistribution body newDistId now
    let newTx := mkDistTransaction body newDistId newTxId now
    { status := 201
      db := { db with
        distributions := db.distributions ++ [newDist]
        transactions := db.transactions ++ [newTx] }
      created := some newDist }

/-- The request body of `PUT /distributions/:id` (only the fields the
paired-row synchronisation touches; other body fields pass through to
the Distribution row unvalidated). -/
structure DistUpdateBody where
  distributed_quantity : Option Int
  notes : Option String
deriving DecidableEq, Repr

/-- `update({ ...body, updated_at })` applied to one Distribution row. -/
def applyDistUpdate (d : Distribution) (body : DistUpdateBody) : Distribution :=
  { d with
    distributed_quantity := match body.distributed_quantity with
      | none => d.distributed_quantity
      | some q => q }

/-- The `PUT /distributions/:id` handler (the Distribution Coordinator's
update path): rewrite the Distribution row (404 when absent), then
rewrite every ledger row carrying this `distribution_id` with
`qty_out: body.distributed_quantity` (a field set to `undefined` is
dropped from the update payload).  The trailing `.single()` on the
second update makes the handler answer 500 unless exactly one ledger row
matched — with both updates already committed. -/
def putDistribution (db : DB) (id : Nat) (body : DistUpdateBody) : Outcome :=
  if db.distributions.any (fun d => d.id == id) then
    let db1 : DB :=
      { db with
        distributions := db.distributions.map
          (fun d => if d.id == id then applyDistUpdate d body else d) }
    let db2 : DB :=
      { db1 with
        transactions := db1.transactions.map
          (fun t =>
            if t.distribution_id == some id then
              match body.distributed_quantity with
              | none => t
              | some q => { t with qty_out := some q }
            else t) }
    if (db.transactions.filter (fun t => t.distribution_id == some id)).length == 1 then
      { status := 200, db := db2 }
    else
      { status := 500, db := db2 }
  else
    { status := 404, db := db }

/-! ### Specification-side aggregates and concrete fixtures -/

/-- The first summary-map entry keyed to `key`, as the JS lookup
`summaryMap[key]` finds it. -/
def findSummary (acc : List DistributionSummary) (key : String) :
    Option DistributionSummary :=
  acc.find? (fun s => s.inventory_item_id == key)

/-- Total `distributed_quantity` of the distribution rows of one item. -/
def sumDistFor (ds : List Distribution) (key : String) : Int :=
  ((ds.filter (fun d => d.inventory_item_id == key)).map
    (fun d => d.distributed_quantity)).sum

/-- Total `qty` of the student-log rows of one item. -/
def sumLogFor (ls : List StudentLog) (key : String) : Int :=
  ((ls.filter (fun l => l.inventory_item_id == key)).map (fun l => l.qty)).sum

/-- The `total_received_quantity` stored for `key` (0 when absent). -/
def recvAt (acc : List DistributionSummary) (key : String) : Int :=
  match findSummary acc key with
  | none => 0
  | some s => s.total_received_quantity

/-- The `total_distributed_quantity` stored for `key` (0 when absent). -/
def distAt (acc : List DistributionSummary) (key : String) : Int :=
  match findSummary acc key with
  | none => 0
  | some s => s.total_distributed_quantity

/-- A concrete store for the C1 witness: one completed purchase of 7,
one completed sale of 2, one pending purchase of 100 (ignored). -/
def c1db : DB :=
  { items := [{ id := "A", name := "pencil", low_stock_threshold := some 0 }]
    transactions :=
      [{ id := 1, item_id := "A", transaction_type := "purchase", qty_in := some 7,
         qty_out := some 0, in_cost := some 0, out_cost := some 0,
         status := TxStatus.completed, distribution_id := none, transaction_date := 1 },
       { id := 2, item_id := "A", transaction_type := "sale", qty_in := some 0,
         qty_out := some 2, in_cost := some 0, out_cost := some 0,
         status := TxStatus.completed, distribution_id := none, transaction_date := 2 },
       { id := 3, item_id := "A", transaction_type := "purchase", qty_in := some 100,
         qty_out := some 0, in_cost := some 0, out_cost := some 0,
         status := TxStatus.pending, distribution_id := none, transaction_date := 3 }]
    distributions := []
    studentLogs := [] }

/-- A store refuting C5's completeness direction: item `A` (threshold 0)
has completed stock `5 - 5 = 0 ≤ 0` (low), but a cancelled purchase of
100 is included by the `low_stock_items` view's `status <> 'pending'`
join, putting the view's stock at `100 > 0`, so the view never offers
the item for re-derivation. -/
def c5db : DB :=
  { items := [{ id := "A", name := "pencil", low_stock_threshold := some 0 }]
    transactions :=
      [{ id := 1, item_id := "A", transaction_type := "purchase", qty_in := some 5,
         qty_out := some 0, in_cost := some 0, out_cost := some 0,
         status := TxStatus.completed, distribution_id := none, transaction_date := 1 },
       { id := 2, item_id := "A", transaction_type := "sale", qty_in := some 0,
         qty_out := some 5, in_cost := some 0, out_cost := some 0,
         status := TxStatus.completed, distribution_id := none, transaction_date := 2 },
       { id := 3, item_id := "A", transaction_type := "purchase", qty_in := some 100,
         qty_out := some 0, in_cost := some 0, out_cost := some 0,
         status := TxStatus.cancelled, distribution_id := none, transaction_date := 3 }]
    distributions := []
    studentLogs := [] }

/-- A store whose ledger satisfies the at-most-one-positive-quantity
invariant: one completed purchase row with `qty_in = 5`, `qty_out = 0`. -/
def c8db : DB :=
  { items := [{ id := "A", name := "pencil", low_stock_threshold := some 0 }]
    transactions :=
      [{ id := 1, item_id := "A", transaction_type := "purchase", qty_in := some 5,
         qty_out := some 0, in_cost := some 0, out_cost := some 0,
         status := TxStatus.completed, distribution_id := none, transaction_date := 1 }]
    distributions := []
    studentLogs := [] }

/-- A transaction-update body setting only `qty_out := 3` — accepted
unvalidated by `PUT /:id`. -/
def c8body : TxUpdateBody :=
  { qty_in := none, qty_out := some 3, in_cost := none, out_cost := none,
    status := none, transaction_date := none }

/-- A store for the handler witnesses: item `A` with completed stock 10
and threshold 3, item `B` with no rows. -/
def hdb : DB :=
  { items :=
      [{ id := "A", name := "pencil", low_stock_threshold := some 3 },
       { id := "B", name := "ruler", low_stock_threshold := some 2 }]
    transactions :=
      [{ id := 1, item_id := "A", transaction_type := "purchase", qty_in := some 10,
         qty_out := some 0, in_cost := some 0, out_cost := some 0,
         status := TxStatus.completed, distribution_id := none, transaction_date := 1 }]
    distributions := []
    studentLogs := [] }

/-- A well-formed distribution request for 4 units of item `A`. -/
def hDistBody : DistBody :=
  { class_id := some "C1", inventory_item_id := some "A",
    session_term_id := some "T1", distributed_quantity := some 4,
    received_by := some "TCH", out_cost := none, distribution_date := some 5,
    created_by := some "U" }

/-- A store holding one distribution (id 1, quantity 5) with its paired
ledger row, for the update-path witness. -/
def c6db : DB :=
  { items := [{ id := "A", name := "pencil", low_stock_threshold := some 0 }]
    transactions :=
      [{ id := 1, item_id := "A", transaction_type := "distribution", qty_in := some 0,
         qty_out := some 5, in_cost := some 0, out_cost := some 0,
         status := TxStatus.completed, distribution_id := some 1, transaction_date := 4 }]
    distributions :=
      [{ id := 1, class_id := "C1", inventory_item_id := "A", session_term_id := "T1",
         distributed_quantity := 5, distribution_date := 4, received_by := some "TCH",
         created_by := "U" }]
    studentLogs := [] }

/-- The keys (item ids) of the summary map, in insertion order. -/
def keysOf (acc : List DistributionSummary) : List String :=
  acc.map (fun s => s.inventory_item_id)

/-- The empty filter set (no query parameter given). -/
def c2f : Filters :=
  { inventory_item_id := none, class_id := none, session_term_id := none,
    teacher_id := none }

/-- A class distribution of 10 units of item `A`. -/
def c2dist : Distribution :=
  { id := 1, class_id := "C", inventory_item_id := "A", session_term_id := "T",
    distributed_quantity := 10, distribution_date := 1, received_by := some "TCH",
    created_by := "U" }

/-- A received student collection of 4 units of item `B`. -/
def c2log : StudentLog :=
  { student_id := "S", class_id := "C", session_term_id := "T",
    inventory_item_id := "B", qty := 4, received := true, given_by := some "TCH" }

/-- The summary row produced for item `A` from `[c2dist]` and `[c2log]`. -/
def c2outA : DistributionSummary :=
  { inventory_item_id := "A", total_received_quantity := 10,
    total_distributed_quantity := 0, balance_quantity := 10,
    last_distribution_date := some 1 }

/-! ### Helper lemmas on the aggregation primitives -/

theorem reduceSum_go (f : Transaction → Option Int) :
    ∀ (l : List Transaction) (init : Int),
      List.foldl (fun s t => s + orZero (f t)) init l =
        init + (l.map (fun t => orZero (f t))).sum := by
  intro l
  induction l with
  | nil => intro init; simp
  | cons t rest ih =>
    intro init
    simp only [List.foldl_cons, List.map_cons, List.sum_cons, ih]
    ring

theorem reduceSum_eq_sum (f : Transaction → Option Int) (l : List Transaction) :
    reduceSum f l = (l.map (fun t => orZero (f t))).sum := by
  unfold reduceSum
  rw [reduceSum_go]
  simp

theorem reduceSum_append (f : Transaction → Option Int) (l₁ l₂ : List Transaction) :
    reduceSum f (l₁ ++ l₂) = reduceSum f l₁ + reduceSum f l₂ := by
  simp [reduceSum_eq_sum, List.map_append, List.sum_append]

theorem calc_current_stock (item : Item) (txs : List Transaction) :
    (calculateInventorySummary item txs).current_stock =
      reduceSum (fun t => t.qty_in) txs - reduceSum (fun t => t.qty_out) txs := rfl

theorem calc_is_low_stock (item : Item) (txs : List Transaction) :
    (calculateInventorySummary item txs).is_low_stock =
      decide ((calculateInventorySummary item txs).current_stock ≤
        orZero item.low_stock_threshold) := rfl

theorem getInventorySummary_eq_some (db : DB) (inventoryId : String)
    (s : InventorySummary) (h : getInventorySummary db inventoryId = some s) :
    ∃ item, db.items.find? (fun i => i.id == inventoryId) = some item ∧
      s = calculateInventorySummary item (completedFor db inventoryId) := by
  unfold getInventorySummary at h
  rcases Option.map_eq_some'.mp h with ⟨item, hfind, hcalc⟩
  exact ⟨item, hfind, hcalc.symm⟩

/-! ### C1 -/

/-- C1: the summary returned by `getInventorySummary` has
`current_stock` equal to the sum of `qty_in` minus the sum of `qty_out`
over exactly the item's completed transactions; on an empty transaction
set the stock is `0`; and a transaction in any other status (pending,
cancelled, deleted) contributes nothing — adding one leaves the whole
summary unchanged. -/
theorem currentStock_eq_completed_sum (db : DB) (inventoryId : String)
    (s : InventorySummary) (h : getInventorySummary db inventoryId = some s) :
    s.current_stock =
        ((completedFor db inventoryId).map (fun t => orZero t.qty_in)).sum -
          ((completedFor db inventoryId).map (fun t => orZero t.qty_out)).sum ∧
      (db.transactions = [] → s.current_stock = 0) ∧
      ∀ t : Transaction, t.status ≠ TxStatus.completed →
        getInventorySummary
          { db with transactions := t :: db.transactions } inventoryId = some s := by
  rcases getInventorySummary_eq_some db inventoryId s h with ⟨item, hfind, hs⟩
  refine ⟨?_, ?_, ?_⟩
  · rw [hs, calc_current_stock, reduceSum_eq_sum, reduceSum_eq_sum]
  · intro hempty
    rw [hs, calc_current_stock]
    have hc : completedFor db inventoryId = [] := by
      unfold completedFor
      rw [hempty]
      rfl
    rw [hc]
    rfl
  · intro t ht
    have hfilter : completedFor { db with transactions := t :: db.transactions } inventoryId =
        completedFor db inventoryId := by
      unfold completedFor
      simp only [List.filter_cons]
      have : (t.item_id == inventoryId && t.status == TxStatus.completed) = false := by
        cases hst : (t.status == TxStatus.completed) with
        | true => exact absurd (eq_of_beq hst) ht
        | false => simp [hst]
      simp [this]
    unfold getInventorySummary at h ⊢
    simp only [hfilter]
    exact h

/-- Witness for C1 at the concrete store `c1db`: the returned stock is
`7 - 2 = 5`, the pending row contributing nothing. -/
theorem currentStock_eq_completed_sum_witness :
    ∃ s : InventorySummary,
      getInventorySummary c1db "A" = some s ∧ s.current_stock = 5 := by
  obtain ⟨s, hs⟩ : ∃ s, getInventorySummary c1db "A" = some s := ⟨_, rfl⟩
  refine ⟨s, hs, ?_⟩
  rw [(currentStock_eq_completed_sum c1db "A" s hs).1]
  decide

/-! ### C7 -/

/-- C7: in every Stock Aggregator summary, `is_low_stock` holds exactly
when the derived `current_stock` is at most the item's threshold with a
missing threshold treated as `0`; in particular an item with no
threshold is flagged exactly when its stock is `≤ 0`. -/
theorem is_low_stock_iff_le_threshold (item : Item) (txs : List Transaction) :
    ((calculateInventorySummary item txs).is_low_stock = true ↔
        (calculateInventorySummary item txs).current_stock ≤
          orZero item.low_stock_threshold) ∧
      (item.low_stock_threshold = none →
        ((calculateInventorySummary item txs).is_low_stock = true ↔
          (calculateInventorySummary item txs).current_stock ≤ 0)) := by
  constructor
  · rw [calc_is_low_stock]
    exact decide_eq_true_iff
  · intro hnone
    rw [calc_is_low_stock, hnone]
    exact decide_eq_true_iff

/-- Witness for C7: an item with no threshold and no transactions has
stock `0 ≤ 0`, hence is flagged low. -/
theorem is_low_stock_iff_le_threshold_witness :
    (calculateInventorySummary
        { id := "A", name := "pencil", low_stock_threshold := none } []).is_low_stock = true := by
  have h := (is_low_stock_iff_le_threshold
    { id := "A", name := "pencil", low_stock_threshold := none } []).2 rfl
  exact h.mpr (by decide)

/-! ### C3 -/

/-- C3: with all required references present, a Distribute request whose
quantity is not positive, or exceeds the derived current stock at the
moment of the check, is answered 400 with neither row written; a request
for a positive quantity at most the current stock passes the stock check
and is answered 201. -/
theorem postDistribution_stock_guard (db : DB) (body : DistBody) (dId tId now : Nat)
    (hc : strTruthy body.class_id = true) (hi : strTruthy body.inventory_item_id = true)
    (hterm : strTruthy body.session_term_id = true) (hr : strTruthy body.received_by = true) :
    ((orZero body.distributed_quantity ≤ 0 ∨
        stockOf db (strVal body.inventory_item_id) < orZero body.distributed_quantity) →
      (postDistribution db body dId tId now).status = 400 ∧
        (postDistribution db body dId tId now).db = db ∧
        (postDistribution db body dId tId now).created = none) ∧
      (0 < orZero body.distributed_quantity →
        orZero body.distributed_quantity ≤ stockOf db (strVal body.inventory_item_id) →
        (postDistribution db body dId tId now).status = 201) := by
  unfold postDistribution
  simp only [hc, hi, hterm, hr, Bool.not_true, Bool.false_or, Bool.or_false]
  constructor
  · intro hbad
    by_cases hf : intFalsy body.distributed_quantity = true
    · simp [hf]
    · have hf' : intFalsy body.distributed_quantity = false := by
        cases h : intFalsy body.distributed_quantity
        · rfl
        · exact absurd h hf
      rcases hbad with hle | hlt
      · simp [hf', hle]
      · by_cases hle0 : orZero body.distributed_quantity ≤ 0
        · simp [hf', hle0]
        · simp [hf', hle0, hlt]
  · intro hpos hle
    have hf : intFalsy body.distributed_quantity = false := by
      cases hq : body.distributed_quantity with
      | none => rw [hq] at hpos; simp [orZero] at hpos
      | some v =>
        rw [hq] at hpos
        simp [orZero] at hpos
        simp [intFalsy]
        omega
    have h1 : ¬(orZero body.distributed_quantity ≤ 0) := by omega
    have h2 : ¬(stockOf db (strVal body.inventory_item_id) < orZero body.distributed_quantity) := by
      omega
    simp [hf, h1, h2]

/-- Witness for C3 at the concrete store `hdb` (stock of `A` is 10): a
request for 80 is refused with nothing written, and a request for
exactly 10 passes the stock check. -/
theorem postDistribution_stock_guard_witness :
    ((postDistribution hdb { hDistBody with distributed_quantity := some 80 } 7 8 9).status = 400 ∧
        (postDistribution hdb { hDistBody with distributed_quantity := some 80 } 7 8 9).db = hdb ∧
        (postDistribution hdb { hDistBody with distributed_quantity := some 80 } 7 8 9).created = none) ∧
      (postDistribution hdb { hDistBody with distributed_quantity := some 10 } 7 8 9).status = 201 := by
  constructor
  · exact (postDistribution_stock_guard hdb
      { hDistBody with distributed_quantity := some 80 } 7 8 9
      (by decide) (by decide) (by decide) (by decide)).1 (Or.inr (by decide))
  · exact (postDistribution_stock_guard hdb
      { hDistBody with distributed_quantity := some 10 } 7 8 9
      (by decide) (by decide) (by decide) (by decide)).2 (by decide) (by decide)

/-! ### C4 -/

theorem stockOf_eq_zero_of_find_none (db : DB) (key : String)
    (hfind : db.items.find? (fun i => i.id == key) = none) : stockOf db key = 0 := by
  unfold stockOf getInventorySummary
  rw [hfind]
  rfl

theorem stockOf_of_find_some (db : DB) (key : String) (it : Item)
    (hfind : db.items.find? (fun i => i.id == key) = some it) :
    stockOf db key = (calculateInventorySummary it (completedFor db key)).current_stock := by
  unfold stockOf getInventorySummary
  rw [hfind]
  rfl

/-- C4: a successful Distribute for quantity `q` answers 201, leaves
exactly one ledger row carrying the new distribution's id — of kind
`distribution`, status `completed`, `qty_out = q` — and the item's
derived current stock drops by exactly `q`. -/
theorem postDistribution_creates_ledger_row (db : DB) (body : DistBody)
    (dId tId now : Nat) (q : Int)
    (hc : strTruthy body.class_id = true) (hi : strTruthy body.inventory_item_id = true)
    (hterm : strTruthy body.session_term_id = true) (hr : strTruthy body.received_by = true)
    (hq : body.distributed_quantity = some q) (hpos : 0 < q)
    (hstock : q ≤ stockOf db (strVal body.inventory_item_id))
    (hfresh : ∀ t ∈ db.transactions, t.distribution_id ≠ some dId) :
    (postDistribution db body dId tId now).status = 201 ∧
      ((postDistribution db body dId tId now).db.transactions.filter
          (fun t => t.distribution_id == some dId)) =
        [mkDistTransaction body dId tId now] ∧
      (mkDistTransaction body dId tId now).transaction_type = "distribution" ∧
      (mkDistTransaction body dId tId now).status = TxStatus.completed ∧
      (mkDistTransaction body dId tId now).qty_out = some q ∧
      stockOf (postDistribution db body dId tId now).db (strVal body.inventory_item_id) =
        stockOf db (strVal body.inventory_item_id) - q := by
  have hf : intFalsy body.distributed_quantity = false := by
    rw [hq]
    simp [intFalsy]
    omega
  have h1 : ¬(orZero body.distributed_quantity ≤ 0) := by rw [hq]; simp [orZero]; omega
  have h2 : ¬(stockOf db (strVal body.inventory_item_id) < orZero body.distributed_quantity) := by
    rw [hq]
    simp [orZero]
    omega
  have hsucc : postDistribution db body dId tId now =
      { status := 201
        db := { db with
          distributions := db.distributions ++ [mkDistribution body dId now]
          transactions := db.transactions ++ [mkDistTransaction body dId tId now] }
        created := some (mkDistribution body dId now) } := by
    unfold postDistribution
    simp [hc, hi, hterm, hr, hf, h1, h2]
  have hqout : (mkDistTransaction body dId tId now).qty_out = some q := by
    simp [mkDistTransaction, hq, orZero]
  refine ⟨by rw [hsucc], ?_, rfl, rfl, hqout, ?_⟩
  · rw [hsucc]
    show (db.transactions ++ [mkDistTransaction body dId tId now]).filter _ = _
    rw [List.filter_append]
    have hnil : db.transactions.filter (fun t => t.distribution_id == some dId) = [] := by
      rw [List.filter_eq_nil_iff]
      intro t ht
      simp
      exact hfresh t ht
    rw [hnil]
    simp [mkDistTransaction]
  · cases hfind : db.items.find? (fun i => i.id == strVal body.inventory_item_id) with
    | none =>
      exfalso
      rw [stockOf_eq_zero_of_find_none db _ hfind] at hstock
      omega
    | some it =>
      rw [hsucc]
      have hcf : completedFor
          { db with
            distributions := db.distributions ++ [mkDistribution body dId now]
            transactions := db.transactions ++ [mkDistTransaction body dId tId now] }
          (strVal body.inventory_item_id) =
          completedFor db (strVal body.inventory_item_id) ++
            [mkDistTransaction body dId tId now] := by
        unfold completedFor
        show (db.transactions ++ [mkDistTransaction body dId tId now]).filter _ = _
        rw [List.filter_append]
        simp [mkDistTransaction]
      have hfind' : ({ db with
            distributions := db.distributions ++ [mkDistribution body dId now]
            transactions := db.transactions ++ [mkDistTransaction body dId tId now] } :
            DB).items.find? (fun i => i.id == strVal body.inventory_item_id) = some it := hfind
      rw [stockOf_of_find_some _ _ it hfind', stockOf_of_find_some db _ it hfind,
        hcf, calc_current_stock, calc_current_stock, reduceSum_append, reduceSum_append]
      have hin : reduceSum (fun t => t.qty_in) [mkDistTransaction body dId tId now] = 0 := by
        simp [reduceSum, mkDistTransaction, orZero]
      have hout : reduceSum (fun t => t.qty_out) [mkDistTransaction body dId tId now] = q := by
        simp [reduceSum, mkDistTransaction, orZero, hq]
      rw [hin, hout]
      ring

/-- Witness for C4: distributing 4 of item `A` (stock 10) in `hdb`
answers 201 and the stock drops to 6. -/
theorem postDistribution_creates_ledger_row_witness :
    (postDistribution hdb hDistBody 7 8 9).status = 201 ∧
      ((postDistribution hdb hDistBody 7 8 9).db.transactions.filter
          (fun t => t.distribution_id == some 7)) = [mkDistTransaction hDistBody 7 8 9] ∧
      (mkDistTransaction hDistBody 7 8 9).transaction_type = "distribution" ∧
      (mkDistTransaction hDistBody 7 8 9).status = TxStatus.completed ∧
      (mkDistTransaction hDistBody 7 8 9).qty_out = some 4 ∧
      stockOf (postDistribution hdb hDistBody 7 8 9).db (strVal hDistBody.inventory_item_id) =
        stockOf hdb (strVal hDistBody.inventory_item_id) - 4 :=
  postDistribution_creates_ledger_row hdb hDistBody 7 8 9 4
    (by decide) (by decide) (by decide) (by decide) rfl (by decide) (by decide)
    (by decide)

/-! ### C10 -/

/-- C10: creating a ledger transaction of kind `sale` enforces a
stock-sufficiency precondition: a missing or non-positive `qty_out`, or
one exceeding the item's derived current stock (0 for a missing item),
is answered 400 with no row written. -/
theorem postTransaction_sale_stock_guard (db : DB) (body : TxBody) (newId now : Nat)
    (hty : body.transaction_type = some "sale")
    (hbad : body.qty_out = none ∨ orZero body.qty_out ≤ 0 ∨
        stockOf db (strVal body.item_id) < orZero body.qty_out) :
    (postTransaction db body newId now).status = 400 ∧
      (postTransaction db body newId now).db = db := by
  unfold postTransaction
  split_ifs with h1 h2 h3 h4 h5 h6
  · exact ⟨rfl, rfl⟩
  · exact ⟨rfl, rfl⟩
  · exact ⟨rfl, rfl⟩
  · exact ⟨rfl, rfl⟩
  · exact ⟨rfl, rfl⟩
  · exact ⟨rfl, rfl⟩
  · exfalso
    rw [hty] at h3 h4
    simp at h3 h4
    rcases hbad with h | h | h
    · rw [h] at h3
      simp [intFalsy] at h3
    · omega
    · omega

/-- Witness for C10: selling 99 of item `A` (stock 10) in `hdb` is
refused with nothing written. -/
theorem postTransaction_sale_stock_guard_witness :
    (postTransaction hdb
        { item_id := some "A", transaction_type := some "sale", qty_in := none,
          qty_out := some 99, in_cost := none, out_cost := none, status := none,
          distribution_id := none, transaction_date := none } 5 0).status = 400 ∧
      (postTransaction hdb
        { item_id := some "A", transaction_type := some "sale", qty_in := none,
          qty_out := some 99, in_cost := none, out_cost := none, status := none,
          distribution_id := none, transaction_date := none } 5 0).db = hdb :=
  postTransaction_sale_stock_guard hdb
    { item_id := some "A", transaction_type := some "sale", qty_in := none,
      qty_out := some 99, in_cost := none, out_cost := none, status := none,
      distribution_id := none, transaction_date := none } 5 0 rfl
    (Or.inr (Or.inr (by decide)))

/-! ### C6 -/

theorem filter_map_pres {α : Type} (f : α → α) (p : α → Bool)
    (hp : ∀ a, p (f a) = p a) (l : List α) :
    (l.map f).filter p = (l.filter p).map f := by
  induction l with
  | nil => rfl
  | cons a tl ih =>
    simp only [List.map_cons, List.filter_cons, hp a]
    cases hpa : p a <;> simp [ih]

/-- C6: when `PUT /distributions/:id` for distribution `d` with a new
quantity answers 200, the store holds exactly one ledger row referencing
`d`, and every ledger row referencing `d` carries `qty_out = newQty`. -/
theorem putDistribution_syncs_ledger_qty_out (db : DB) (id : Nat)
    (body : DistUpdateBody) (q : Int)
    (hq : body.distributed_quantity = some q)
    (h200 : (putDistribution db id body).status = 200) :
    ((putDistribution db id body).db.transactions.filter
        (fun t => t.distribution_id == some id)).length = 1 ∧
      ∀ t ∈ (putDistribution db id body).db.transactions,
        t.distribution_id = some id → t.qty_out = some q := by
  unfold putDistribution at h200 ⊢
  by_cases hany : db.distributions.any (fun d => d.id == id) = true
  · simp only [hany, if_true] at h200 ⊢
    by_cases hlen :
        ((db.transactions.filter (fun t => t.distribution_id == some id)).length == 1) = true
    · simp only [hlen, if_true] at h200 ⊢
      constructor
      · show ((db.transactions.map _).filter _).length = 1
        rw [filter_map_pres]
        · rw [List.length_map]
          simp only [beq_iff_eq] at hlen
          exact hlen
        · intro t
          cases h0 : (t.distribution_id == some id) <;> simp [h0, hq]
      · intro t ht hdid
        have ht' : t ∈ db.transactions.map
            (fun t =>
              if t.distribution_id == some id then
                match body.distributed_quantity with
                | none => t
                | some q => { t with qty_out := some q }
              else t) := ht
        rcases List.mem_map.mp ht' with ⟨t0, _, rfl⟩
        cases h0 : (t0.distribution_id == some id) with
        | true => simp [h0, hq]
        | false =>
          rw [h0] at hdid
          simp at hdid
          rw [hdid] at h0
          simp at h0
    · have hlen' :
          ((db.transactions.filter (fun t => t.distribution_id == some id)).length == 1) = false := by
        cases h : ((db.transactions.filter (fun t => t.distribution_id == some id)).length == 1)
        · rfl
        · exact absurd h hlen
      rw [hlen'] at h200
      simp at h200
  · have hany' : db.distributions.any (fun d => d.id == id) = false := by
      cases h : db.distributions.any (fun d => d.id == id)
      · rfl
      · exact absurd h hany
    rw [hany'] at h200
    simp at h200

/-- Witness for C6: updating distribution 1 in `c6db` to quantity 3
answers 200 and leaves its single paired ledger row at `qty_out = 3`. -/
theorem putDistribution_syncs_ledger_qty_out_witness :
    ((putDistribution c6db 1 { distributed_quantity := some 3, notes := none }).db.transactions.filter
        (fun t => t.distribution_id == some 1)).length = 1 ∧
      ∀ t ∈ (putDistribution c6db 1
          { distributed_quantity := some 3, notes := none }).db.transactions,
        t.distribution_id = some 1 → t.qty_out = some 3 :=
  putDistribution_syncs_ledger_qty_out c6db 1
    { distributed_quantity := some 3, notes := none } 3 rfl (by decide)

/-! ### C8 -/

/-- Counterexample to C8: `c8db` satisfies the at-most-one-positive
invariant, yet the unvalidated transaction-update path `PUT /:id`
applied with `{ qty_out: 3 }` to the purchase row (`qty_in = 5`)
succeeds and leaves a row with both quantities positive. -/
theorem ledger_both_positive_counterexample :
    (∀ t ∈ c8db.transactions, ¬(0 < orZero t.qty_in ∧ 0 < orZero t.qty_out)) ∧
      (putTransaction c8db 1 c8body).status = 200 ∧
      ∃ t ∈ (putTransaction c8db 1 c8body).db.transactions,
        0 < orZero t.qty_in ∧ 0 < orZero t.qty_out := by decide

/-- C8 as amended: direct transaction creation rejects a request with
both quantities positive (nothing written); the Distribution
Coordinator's create path preserves the invariant (its ledger row has
`qty_in = 0`); its update path preserves it on stores whose rows keyed
to the updated distribution have no positive `qty_in` (as
coordinator-written rows do).  The generic transaction-update path
carries no such guarantee. -/
theorem ledger_both_positive_guards :
    (∀ (db : DB) (body : TxBody) (newId now : Nat),
        0 < orZero body.qty_in → 0 < orZero body.qty_out →
        (postTransaction db body newId now).status = 400 ∧
          (postTransaction db body newId now).db = db) ∧
      (∀ (db : DB) (body : DistBody) (dId tId now : Nat),
        (∀ t ∈ db.transactions, ¬(0 < orZero t.qty_in ∧ 0 < orZero t.qty_out)) →
        ∀ t ∈ (postDistribution db body dId tId now).db.transactions,
          ¬(0 < orZero t.qty_in ∧ 0 < orZero t.qty_out)) ∧
      (∀ (db : DB) (id : Nat) (body : DistUpdateBody),
        (∀ t ∈ db.transactions, ¬(0 < orZero t.qty_in ∧ 0 < orZero t.qty_out)) →
        (∀ t ∈ db.transactions, t.distribution_id = some id → orZero t.qty_in ≤ 0) →
        ∀ t ∈ (putDistribution db id body).db.transactions,
          ¬(0 < orZero t.qty_in ∧ 0 < orZero t.qty_out)) := by
  refine ⟨?_, ?_, ?_⟩
  · intro db body newId now hin hout
    unfold postTransaction
    split_ifs with h1 h2 h3 h4 h5 h6
    · exact ⟨rfl, rfl⟩
    · exact ⟨rfl, rfl⟩
    · exact ⟨rfl, rfl⟩
    · exact ⟨rfl, rfl⟩
    · exact ⟨rfl, rfl⟩
    · exact ⟨rfl, rfl⟩
    · exfalso
      apply h6
      simp only [Bool.and_eq_true, decide_eq_true_eq]
      exact ⟨hin, hout⟩
  · intro db body dId tId now hinv t ht
    unfold postDistribution at ht
    split_ifs at ht with h1 h2 h3
    · exact hinv t ht
    · exact hinv t ht
    · exact hinv t ht
    · have ht' : t ∈ db.transactions ++ [mkDistTransaction body dId tId now] := ht
      rcases List.mem_append.mp ht' with hold | hnew
      · exact hinv t hold
      · rcases List.mem_singleton.mp hnew with rfl
        intro hcontra
        have : orZero (mkDistTransaction body dId tId now).qty_in = 0 := by
          simp [mkDistTransaction, orZero]
        omega
  · intro db id body hinv hkeyed t ht
    unfold putDistribution at ht
    by_cases hany : db.distributions.any (fun d => d.id == id) = true
    · simp only [hany, if_true] at ht
      have ht' : t ∈ db.transactions.map
          (fun t =>
            if t.distribution_id == some id then
              match body.distributed_quantity with
              | none => t
              | some q => { t with qty_out := some q }
            else t) := by
        by_cases hlen :
            ((db.transactions.filter (fun t => t.distribution_id == some id)).length == 1) = true
        · simp only [hlen, if_true] at ht
          exact ht
        · have hlen' :
              ((db.transactions.filter
                (fun t => t.distribution_id == some id)).length == 1) = false := by
            cases h : ((db.transactions.filter
              (fun t => t.distribution_id == some id)).length == 1)
            · rfl
            · exact absurd h hlen
          rw [hlen'] at ht
          simp only [Bool.false_eq_true, if_false] at ht
          exact ht
      rcases List.mem_map.mp ht' with ⟨t0, ht0, rfl⟩
      cases h0 : (t0.distribution_id == some id) with
      | false => simp only [h0, Bool.false_eq_true, if_false]; exact hinv t0 ht0
      | true =>
        simp only [h0, if_true]
        have hdid : t0.distribution_id = some id := by
          have := h0
          simp at this
          exact this
        have hin0 : orZero t0.qty_in ≤ 0 := hkeyed t0 ht0 hdid
        cases hbq : body.distributed_quantity with
        | none => exact hinv t0 ht0
        | some q' =>
          intro hcontra
          have hc1 : 0 < orZero t0.qty_in := by
            have hc := hcontra.1
            simpa using hc
          omega
    · have hany' : db.distributions.any (fun d => d.id == id) = false := by
        cases h : db.distributions.any (fun d => d.id == id)
        · rfl
        · exact absurd h hany
      rw [hany'] at ht
      simp only [Bool.false_eq_true, if_false] at ht
      exact hinv t ht

/-- Witness for the amended C8: a direct creation with `qty_in = 2` and
`qty_out = 3` against `hdb` is refused with nothing written. -/
theorem ledger_both_positive_guards_witness :
    (postTransaction hdb
        { item_id := some "A", transaction_type := some "purchase", qty_in := some 2,
          qty_out := some 3, in_cost := none, out_cost := none, status := none,
          distribution_id := none, transaction_date := none } 9 0).status = 400 ∧
      (postTransaction hdb
        { item_id := some "A", transaction_type := some "purchase", qty_in := some 2,
          qty_out := some 3, in_cost := none, out_cost := none, status := none,
          distribution_id := none, transaction_date := none } 9 0).db = hdb :=
  ledger_both_positive_guards.1 hdb
    { item_id := some "A", transaction_type := some "purchase", qty_in := some 2,
      qty_out := some 3, in_cost := none, out_cost := none, status := none,
      distribution_id := none, transaction_date := none } 9 0 (by decide) (by decide)

/-! ### C5 -/

/-- Counterexample to C5's completeness: in `c5db`, item `A` is low on
the completed-rows stock definition (`is_low_stock` holds on its
re-derived summary), yet `getLowStockItems` returns nothing, because the
view's pre-selection counts the cancelled purchase (status `<> 'pending'`)
and sees stock 100 above the threshold. -/
theorem getLowStockItems_counterexample :
    (getInventorySummary c5db "A").map (fun s => s.is_low_stock) = some true ∧
      getLowStockItems c5db = [] := by decide

theorem calc_stock_le_of_low (item : Item) (txs : List Transaction)
    (h : (calculateInventorySummary item txs).is_low_stock = true) :
    (calculateInventorySummary item txs).current_stock ≤
      (calculateInventorySummary item txs).low_stock_threshold := by
  rw [calc_is_low_stock] at h
  exact of_decide_eq_true h

theorem find?_id_of_nodup (l : List Item) (hnd : (l.map (fun i => i.id)).Nodup)
    (i : Item) (hi : i ∈ l) : l.find? (fun j => j.id == i.id) = some i := by
  induction l with
  | nil => cases hi
  | cons a tl ih =>
    rw [List.map_cons] at hnd
    rcases List.mem_cons.mp hi with rfl | hmem
    · rw [List.find?_cons_of_pos]
      simp
    · have hane : (a.id == i.id) = false := by
        have hnotmem := (List.nodup_cons.mp hnd).1
        cases h : (a.id == i.id)
        · rfl
        · exfalso
          apply hnotmem
          rw [eq_of_beq h]
          exact List.mem_map.mpr ⟨i, hmem, rfl⟩
      rw [List.find?_cons_of_neg]
      · exact ih (List.nodup_cons.mp hnd).2 hmem
      · simp [hane]

/-- C5 as amended: every item `getLowStockItems` returns does satisfy
`current_stock ≤ low_stock_threshold` on the completed-rows definition,
and every item that passes the view's pre-selection (non-pending stock at
most its non-null threshold) and is low on the completed-rows definition
is returned; but the original exactness fails, because the pre-selection
folds cancelled and deleted rows into its stock, so an item low on
completed rows can be withheld entirely (see the counterexample). -/
theorem getLowStockItems_amended (db : DB) :
    (∀ s ∈ getLowStockItems db, s.is_low_stock = true ∧
        s.current_stock ≤ s.low_stock_threshold) ∧
      ((db.items.map (fun i => i.id)).Nodup →
        ∀ i ∈ db.items, ∀ th, i.low_stock_threshold = some th →
          viewCurrentStock (nonPendingFor db i.id) ≤ th →
          (calculateInventorySummary i (completedFor db i.id)).is_low_stock = true →
          ∃ s ∈ getLowStockItems db, s.id = i.id) := by
  constructor
  · intro s hs
    unfold getLowStockItems at hs
    rcases List.mem_filterMap.mp hs with ⟨i, hiv, hf⟩
    cases hsum : getInventorySummary db i.id with
    | none => rw [hsum] at hf; cases hf
    | some summary =>
      rw [hsum] at hf
      have hf2 : (if summary.is_low_stock = true then some summary else none) = some s := hf
      by_cases hlow : summary.is_low_stock = true
      · rw [if_pos hlow] at hf2
        have hf' : summary = s := Option.some.inj hf2
        subst hf'
        rcases getInventorySummary_eq_some db i.id summary hsum with ⟨it, _, hcalc⟩
        subst hcalc
        exact ⟨hlow, calc_stock_le_of_low it _ hlow⟩
      · rw [if_neg hlow] at hf2
        cases hf2
  · intro hnd i hi th hth hview hlow
    have hfind : db.items.find? (fun j => j.id == i.id) = some i :=
      find?_id_of_nodup db.items hnd i hi
    have hsum : getInventorySummary db i.id =
        some (calculateInventorySummary i (completedFor db i.id)) := by
      unfold getInventorySummary
      rw [hfind]
      rfl
    refine ⟨calculateInventorySummary i (completedFor db i.id), ?_, rfl⟩
    unfold getLowStockItems
    apply List.mem_filterMap.mpr
    refine ⟨i, ?_, ?_⟩
    · unfold low_stock_items
      apply List.mem_filter.mpr
      refine ⟨hi, ?_⟩
      rw [hth]
      simp [hview]
    · rw [hsum]
      simp [hlow]

/-- Witness for the amended C5 at `c6db`: item `A` (threshold 0) has
completed stock `-5 ≤ 0` and view stock `-5 ≤ 0`, so it is returned. -/
theorem getLowStockItems_amended_witness :
    ∃ s ∈ getLowStockItems c6db, s.id = "A" :=
  (getLowStockItems_amended c6db).2 (by decide)
    { id := "A", name := "pencil", low_stock_threshold := some 0 } (by decide) 0 rfl
    (by decide) (by decide)

/-! ### Association-list lemmas for the summary map -/

theorem findSummary_key (acc : List DistributionSummary) (key : String)
    (s : DistributionSummary) (h : findSummary acc key = some s) :
    s.inventory_item_id = key := by
  have hp := List.find?_some h
  exact eq_of_beq hp

theorem findSummary_map (f : DistributionSummary → DistributionSummary)
    (hf : ∀ s, (f s).inventory_item_id = s.inventory_item_id)
    (acc : List DistributionSummary) (key : String) :
    findSummary (acc.map f) key = (findSummary acc key).map f := by
  induction acc with
  | nil => rfl
  | cons a tl ih =>
    unfold findSummary at ih ⊢
    rw [List.map_cons, List.find?_cons, List.find?_cons]
    have hkey : ((f a).inventory_item_id == key) = (a.inventory_item_id == key) := by
      rw [hf a]
    rw [hkey]
    cases h : (a.inventory_item_id == key)
    · simpa using ih
    · rfl

theorem findSummary_append (l₁ l₂ : List DistributionSummary) (key : String) :
    findSummary (l₁ ++ l₂) key =
      match findSummary l₁ key with
      | some s => some s
      | none => findSummary l₂ key := by
  induction l₁ with
  | nil => rfl
  | cons a tl ih =>
    unfold findSummary at ih ⊢
    rw [List.cons_append, List.find?_cons, List.find?_cons]
    cases h : (a.inventory_item_id == key)
    · simpa using ih
    · rfl

theorem hasKey_eq_isSome (acc : List DistributionSummary) (key : String) :
    hasKey acc key = (findSummary acc key).isSome := by
  induction acc with
  | nil => rfl
  | cons a tl ih =>
    unfold hasKey findSummary at ih ⊢
    rw [List.any_cons, List.find?_cons]
    cases h : (a.inventory_item_id == key)
    · simpa using ih
    · rfl

theorem findSummary_update_ne (acc : List DistributionSummary) (k key : String)
    (g : DistributionSummary → DistributionSummary)
    (hg : ∀ s, (g s).inventory_item_id = s.inventory_item_id)
    (h : k ≠ key) :
    findSummary ((ensureKey acc k).map
        (fun s => if s.inventory_item_id == k then g s else s)) key =
      findSummary acc key := by
  have hkeys : ∀ s : DistributionSummary,
      ((if s.inventory_item_id == k then g s else s) : DistributionSummary).inventory_item_id =
        s.inventory_item_id := by
    intro s
    cases hk : (s.inventory_item_id == k) <;> simp [hk, hg]
  rw [findSummary_map _ hkeys]
  unfold ensureKey
  by_cases hk : hasKey acc k = true
  · rw [if_pos hk]
    cases hfs : findSummary acc key with
    | none => rfl
    | some s =>
      have hskey := findSummary_key _ _ _ hfs
      have hne : (s.inventory_item_id == k) = false := by
        rw [hskey]
        exact beq_eq_false_iff_ne.mpr (Ne.symm h)
      simp [hne]
      intro heq
      exact absurd (hskey ▸ heq).symm h
  · rw [if_neg hk]
    rw [findSummary_append]
    have hfresh : findSummary [freshEntry k] key = none := by
      have hne : ((freshEntry k).inventory_item_id == key) = false :=
        beq_eq_false_iff_ne.mpr h
      simp [findSummary, List.find?_cons, hne]
    cases hfs : findSummary acc key with
    | none =>
      rw [hfresh]
      rfl
    | some s =>
      have hskey := findSummary_key _ _ _ hfs
      have hne : (s.inventory_item_id == k) = false := by
        rw [hskey]
        exact beq_eq_false_iff_ne.mpr (Ne.symm h)
      simp [hne]
      intro heq
      exact absurd (hskey ▸ heq).symm h

theorem findSummary_update_eq (acc : List DistributionSummary) (k : String)
    (g : DistributionSummary → DistributionSummary)
    (hg : ∀ s, (g s).inventory_item_id = s.inventory_item_id) :
    findSummary ((ensureKey acc k).map
        (fun s => if s.inventory_item_id == k then g s else s)) k =
      some (g ((findSummary acc k).getD (freshEntry k))) := by
  have hkeys : ∀ s : DistributionSummary,
      ((if s.inventory_item_id == k then g s else s) : DistributionSummary).inventory_item_id =
        s.inventory_item_id := by
    intro s
    cases hk : (s.inventory_item_id == k) <;> simp [hk, hg]
  rw [findSummary_map _ hkeys]
  unfold ensureKey
  by_cases hk : hasKey acc k = true
  · rw [if_pos hk]
    have hiso : (findSummary acc k).isSome = true := by
      rw [← hasKey_eq_isSome]
      exact hk
    cases hfs : findSummary acc k with
    | none => rw [hfs] at hiso; cases hiso
    | some s =>
      have hskey := findSummary_key _ _ _ hfs
      have heq : (s.inventory_item_id == k) = true := by
        rw [hskey]
        simp
      simp [heq]
      intro hne'
      exact absurd hskey hne'
  · rw [if_neg hk]
    have hnone : findSummary acc k = none := by
      have hkf : hasKey acc k = false := by
        cases h : hasKey acc k
        · rfl
        · exact absurd h hk
      rw [hasKey_eq_isSome] at hkf
      cases hfs : findSummary acc k
      · rfl
      · rw [hfs] at hkf
        simp at hkf
    rw [findSummary_append, hnone]
    have hfrkey : ((freshEntry k).inventory_item_id == k) = true := by
      simp [freshEntry]
    have hfresh : findSummary [freshEntry k] k = some (freshEntry k) := by
      simp [findSummary, List.find?_cons, hfrkey]
    rw [hfresh]
    simp [hfrkey]
    intro hne'
    exact absurd rfl hne'

theorem addDist_key (s : DistributionSummary) (d : Distribution) :
    (addDist s d).inventory_item_id = s.inventory_item_id := rfl

theorem addLog_key (s : DistributionSummary) (l : StudentLog) :
    (addLog s l).inventory_item_id = s.inventory_item_id := rfl

theorem recvAt_stepDist (acc : List DistributionSummary) (d : Distribution) (key : String) :
    recvAt (stepDist acc d) key =
      recvAt acc key + (if d.inventory_item_id = key then d.distributed_quantity else 0) := by
  by_cases h : d.inventory_item_id = key
  · subst h
    rw [if_pos rfl]
    unfold recvAt stepDist
    rw [findSummary_update_eq acc d.inventory_item_id (fun s => addDist s d)
      (fun s => addDist_key s d)]
    cases hfs : findSummary acc d.inventory_item_id with
    | none => simp [addDist, freshEntry]
    | some s => simp [addDist]
  · rw [if_neg h]
    unfold recvAt stepDist
    rw [findSummary_update_ne acc d.inventory_item_id key (fun s => addDist s d)
      (fun s => addDist_key s d) h]
    cases findSummary acc key <;> simp

theorem distAt_stepDist (acc : List DistributionSummary) (d : Distribution) (key : String) :
    distAt (stepDist acc d) key = distAt acc key := by
  by_cases h : d.inventory_item_id = key
  · subst h
    unfold distAt stepDist
    rw [findSummary_update_eq acc d.inventory_item_id (fun s => addDist s d)
      (fun s => addDist_key s d)]
    cases hfs : findSummary acc d.inventory_item_id with
    | none => simp [addDist, freshEntry]
    | some s => simp [addDist]
  · unfold distAt stepDist
    rw [findSummary_update_ne acc d.inventory_item_id key (fun s => addDist s d)
      (fun s => addDist_key s d) h]

theorem recvAt_stepLog (acc : List DistributionSummary) (l : StudentLog) (key : String) :
    recvAt (stepLog acc l) key = recvAt acc key := by
  by_cases h : l.inventory_item_id = key
  · subst h
    unfold recvAt stepLog
    rw [findSummary_update_eq acc l.inventory_item_id (fun s => addLog s l)
      (fun s => addLog_key s l)]
    cases hfs : findSummary acc l.inventory_item_id with
    | none => simp [addLog, freshEntry]
    | some s => simp [addLog]
  · unfold recvAt stepLog
    rw [findSummary_update_ne acc l.inventory_item_id key (fun s => addLog s l)
      (fun s => addLog_key s l) h]

theorem distAt_stepLog (acc : List DistributionSummary) (l : StudentLog) (key : String) :
    distAt (stepLog acc l) key =
      distAt acc key + (if l.inventory_item_id = key then l.qty else 0) := by
  by_cases h : l.inventory_item_id = key
  · subst h
    rw [if_pos rfl]
    unfold distAt stepLog
    rw [findSummary_update_eq acc l.inventory_item_id (fun s => addLog s l)
      (fun s => addLog_key s l)]
    cases hfs : findSummary acc l.inventory_item_id with
    | none => simp [addLog, freshEntry]
    | some s => simp [addLog]
  · rw [if_neg h]
    unfold distAt stepLog
    rw [findSummary_update_ne acc l.inventory_item_id key (fun s => addLog s l)
      (fun s => addLog_key s l) h]
    cases findSummary acc key <;> simp

theorem isSome_stepDist (acc : List DistributionSummary) (d : Distribution) (key : String) :
    (findSummary (stepDist acc d) key).isSome =
      ((findSummary acc key).isSome || (d.inventory_item_id == key)) := by
  by_cases h : d.inventory_item_id = key
  · subst h
    unfold stepDist
    rw [findSummary_update_eq acc d.inventory_item_id (fun s => addDist s d)
      (fun s => addDist_key s d)]
    simp
  · unfold stepDist
    rw [findSummary_update_ne acc d.inventory_item_id key (fun s => addDist s d)
      (fun s => addDist_key s d) h]
    have hne : (d.inventory_item_id == key) = false := beq_eq_false_iff_ne.mpr h
    simp [hne]

theorem isSome_stepLog (acc : List DistributionSummary) (l : StudentLog) (key : String) :
    (findSummary (stepLog acc l) key).isSome =
      ((findSummary acc key).isSome || (l.inventory_item_id == key)) := by
  by_cases h : l.inventory_item_id = key
  · subst h
    unfold stepLog
    rw [findSummary_update_eq acc l.inventory_item_id (fun s => addLog s l)
      (fun s => addLog_key s l)]
    simp
  · unfold stepLog
    rw [findSummary_update_ne acc l.inventory_item_id key (fun s => addLog s l)
      (fun s => addLog_key s l) h]
    have hne : (l.inventory_item_id == key) = false := beq_eq_false_iff_ne.mpr h
    simp [hne]

theorem recvAt_foldl_stepDist (ds : List Distribution) :
    ∀ (acc : List DistributionSummary) (key : String),
      recvAt (ds.foldl stepDist acc) key = recvAt acc key + sumDistFor ds key := by
  induction ds with
  | nil => intro acc key; simp [sumDistFor]
  | cons d rest ih =>
    intro acc key
    rw [List.foldl_cons, ih, recvAt_stepDist]
    have hsum : sumDistFor (d :: rest) key =
        (if d.inventory_item_id = key then d.distributed_quantity else 0) +
          sumDistFor rest key := by
      unfold sumDistFor
      rw [List.filter_cons]
      by_cases h : d.inventory_item_id = key
      · simp [h]
      · have hne : (d.inventory_item_id == key) = false := beq_eq_false_iff_ne.mpr h
        simp [h, hne]
    rw [hsum]
    ring

theorem distAt_foldl_stepDist (ds : List Distribution) :
    ∀ (acc : List DistributionSummary) (key : String),
      distAt (ds.foldl stepDist acc) key = distAt acc key := by
  induction ds with
  | nil => intro acc key; rfl
  | cons d rest ih =>
    intro acc key
    rw [List.foldl_cons, ih, distAt_stepDist]

theorem recvAt_foldl_stepLog (ls : List StudentLog) :
    ∀ (acc : List DistributionSummary) (key : String),
      recvAt (ls.foldl stepLog acc) key = recvAt acc key := by
  induction ls with
  | nil => intro acc key; rfl
  | cons l rest ih =>
    intro acc key
    rw [List.foldl_cons, ih, recvAt_stepLog]

theorem distAt_foldl_stepLog (ls : List StudentLog) :
    ∀ (acc : List DistributionSummary) (key : String),
      distAt (ls.foldl stepLog acc) key = distAt acc key + sumLogFor ls key := by
  induction ls with
  | nil => intro acc key; simp [sumLogFor]
  | cons l rest ih =>
    intro acc key
    rw [List.foldl_cons, ih, distAt_stepLog]
    have hsum : sumLogFor (l :: rest) key =
        (if l.inventory_item_id = key then l.qty else 0) + sumLogFor rest key := by
      unfold sumLogFor
      rw [List.filter_cons]
      by_cases h : l.inventory_item_id = key
      · simp [h]
      · have hne : (l.inventory_item_id == key) = false := beq_eq_false_iff_ne.mpr h
        simp [h, hne]
    rw [hsum]
    ring

theorem isSome_foldl_stepDist (ds : List Distribution) :
    ∀ (acc : List DistributionSummary) (key : String),
      (findSummary (ds.foldl stepDist acc) key).isSome =
        ((findSummary acc key).isSome || ds.any (fun d => d.inventory_item_id == key)) := by
  induction ds with
  | nil => intro acc key; simp
  | cons d rest ih =>
    intro acc key
    rw [List.foldl_cons, ih, isSome_stepDist, List.any_cons, Bool.or_assoc]

theorem isSome_foldl_stepLog (ls : List StudentLog) :
    ∀ (acc : List DistributionSummary) (key : String),
      (findSummary (ls.foldl stepLog acc) key).isSome =
        ((findSummary acc key).isSome || ls.any (fun l => l.inventory_item_id == key)) := by
  induction ls with
  | nil => intro acc key; simp
  | cons l rest ih =>
    intro acc key
    rw [List.foldl_cons, ih, isSome_stepLog, List.any_cons, Bool.or_assoc]

theorem keysOf_map_pres (f : DistributionSummary → DistributionSummary)
    (hf : ∀ s, (f s).inventory_item_id = s.inventory_item_id)
    (l : List DistributionSummary) : keysOf (l.map f) = keysOf l := by
  induction l with
  | nil => rfl
  | cons a tl ih =>
    simp only [keysOf, List.map_cons] at ih ⊢
    rw [hf a, ih]

theorem nodup_keysOf_update (acc : List DistributionSummary) (k : String)
    (g : DistributionSummary → DistributionSummary)
    (hg : ∀ s, (g s).inventory_item_id = s.inventory_item_id)
    (h : (keysOf acc).Nodup) :
    (keysOf ((ensureKey acc k).map
      (fun s => if s.inventory_item_id == k then g s else s))).Nodup := by
  have hkeys : ∀ s : DistributionSummary,
      ((if s.inventory_item_id == k then g s else s) : DistributionSummary).inventory_item_id =
        s.inventory_item_id := by
    intro s
    cases hk : (s.inventory_item_id == k) <;> simp [hk, hg]
  rw [keysOf_map_pres _ hkeys]
  unfold ensureKey
  by_cases hk : hasKey acc k = true
  · rw [if_pos hk]
    exact h
  · rw [if_neg hk]
    have hkmem : k ∉ keysOf acc := by
      intro hmem
      rcases List.mem_map.mp hmem with ⟨s, hsmem, hskey⟩
      apply hk
      unfold hasKey
      rw [List.any_eq_true]
      exact ⟨s, hsmem, by simp [hskey]⟩
    have happ : keysOf (acc ++ [freshEntry k]) = keysOf acc ++ [k] := by
      unfold keysOf
      rw [List.map_append]
      rfl
    rw [happ, List.nodup_append]
    refine ⟨h, List.nodup_singleton k, ?_⟩
    intro x hx hx1
    rw [List.mem_singleton.mp hx1] at hx
    exact hkmem hx

theorem nodup_keysOf_foldl_stepDist (ds : List Distribution) :
    ∀ (acc : List DistributionSummary), (keysOf acc).Nodup →
      (keysOf (ds.foldl stepDist acc)).Nodup := by
  induction ds with
  | nil => intro acc h; exact h
  | cons d rest ih =>
    intro acc h
    rw [List.foldl_cons]
    exact ih _ (nodup_keysOf_update acc d.inventory_item_id (fun s => addDist s d)
      (fun s => addDist_key s d) h)

theorem nodup_keysOf_foldl_stepLog (ls : List StudentLog) :
    ∀ (acc : List DistributionSummary), (keysOf acc).Nodup →
      (keysOf (ls.foldl stepLog acc)).Nodup := by
  induction ls with
  | nil => intro acc h; exact h
  | cons l rest ih =>
    intro acc h
    rw [List.foldl_cons]
    exact ih _ (nodup_keysOf_update acc l.inventory_item_id (fun s => addLog s l)
      (fun s => addLog_key s l) h)

theorem findSummary_of_mem_nodup (l : List DistributionSummary)
    (h : (keysOf l).Nodup) (s : DistributionSummary) (hs : s ∈ l) :
    findSummary l s.inventory_item_id = some s := by
  induction l with
  | nil => cases hs
  | cons a tl ih =>
    unfold keysOf at h
    rw [List.map_cons] at h
    rcases List.mem_cons.mp hs with rfl | hmem
    · unfold findSummary
      rw [List.find?_cons_of_pos]
      simp
    · have hane : (a.inventory_item_id == s.inventory_item_id) = false := by
        have hnotmem := (List.nodup_cons.mp h).1
        cases hb : (a.inventory_item_id == s.inventory_item_id)
        · rfl
        · exfalso
          apply hnotmem
          rw [eq_of_beq hb]
          exact List.mem_map.mpr ⟨s, hmem, rfl⟩
      unfold findSummary
      rw [List.find?_cons_of_neg]
      · exact ih (List.nodup_cons.mp h).2 hmem
      · simp [hane]

theorem isSome_computeBalance (acc : List DistributionSummary) (key : String) :
    (findSummary (computeBalance acc) key).isSome = (findSummary acc key).isSome := by
  unfold computeBalance
  rw [findSummary_map
    (fun s =>
      { s with balance_quantity := s.total_received_quantity - s.total_distributed_quantity })
    (fun s => rfl)]
  cases findSummary acc key <;> rfl

theorem getDistributionSummary_mem_spec (f : Filters) (dists : List Distribution)
    (logs : List StudentLog) :
    ∀ s ∈ getDistributionSummary f dists logs,
      s.total_received_quantity =
          sumDistFor (dists.filter (distMatches f)) s.inventory_item_id ∧
        s.total_distributed_quantity =
          sumLogFor (logs.filter (logMatches f)) s.inventory_item_id ∧
        s.balance_quantity = s.total_received_quantity - s.total_distributed_quantity := by
  intro s hs
  simp only [getDistributionSummary, computeBalance] at hs
  rcases List.mem_map.mp hs with ⟨s0, hs0, rfl⟩
  have hnd : (keysOf ((logs.filter (logMatches f)).foldl stepLog
      ((dists.filter (distMatches f)).foldl stepDist []))).Nodup :=
    nodup_keysOf_foldl_stepLog _ _
      (nodup_keysOf_foldl_stepDist _ _ List.nodup_nil)
  have hfind := findSummary_of_mem_nodup _ hnd s0 hs0
  have hrecv : s0.total_received_quantity =
      sumDistFor (dists.filter (distMatches f)) s0.inventory_item_id := by
    have h1 : recvAt ((logs.filter (logMatches f)).foldl stepLog
        ((dists.filter (distMatches f)).foldl stepDist [])) s0.inventory_item_id =
        sumDistFor (dists.filter (distMatches f)) s0.inventory_item_id := by
      rw [recvAt_foldl_stepLog, recvAt_foldl_stepDist]
      simp [recvAt, findSummary]
    rw [← h1]
    unfold recvAt
    rw [hfind]
  have hdist : s0.total_distributed_quantity =
      sumLogFor (logs.filter (logMatches f)) s0.inventory_item_id := by
    have h1 : distAt ((logs.filter (logMatches f)).foldl stepLog
        ((dists.filter (distMatches f)).foldl stepDist [])) s0.inventory_item_id =
        sumLogFor (logs.filter (logMatches f)) s0.inventory_item_id := by
      rw [distAt_foldl_stepLog, distAt_foldl_stepDist]
      simp [distAt, findSummary]
    rw [← h1]
    unfold distAt
    rw [hfind]
  exact ⟨hrecv, hdist, rfl⟩

/-! ### C9 -/

/-- C9: in every `getDistributionSummary` row, the field named
`total_received_quantity` holds the sum of the class distributions'
`distributed_quantity` and the field named `total_distributed_quantity`
holds the sum of the received student collections' `qty` — the names
carry the opposite of their documented meanings — and `balance_quantity`
is their difference as stored. -/
theorem distributionSummary_fields_crossed (f : Filters) (dists : List Distribution)
    (logs : List StudentLog) :
    ∀ s ∈ getDistributionSummary f dists logs,
      s.total_received_quantity =
          sumDistFor (dists.filter (distMatches f)) s.inventory_item_id ∧
        s.total_distributed_quantity =
          sumLogFor (logs.filter (logMatches f)) s.inventory_item_id ∧
        s.balance_quantity = s.total_received_quantity - s.total_distributed_quantity :=
  getDistributionSummary_mem_spec f dists logs

/-- Witness for C9: the row for item `A` built from one distribution of
10 and one collection of 4 (on item `B`) stores 10 in
`total_received_quantity`, 0 in `total_distributed_quantity`. -/
theorem distributionSummary_fields_crossed_witness :
    c2outA.total_received_quantity =
        sumDistFor ([c2dist].filter (distMatches c2f)) c2outA.inventory_item_id ∧
      c2outA.total_distributed_quantity =
        sumLogFor ([c2log].filter (logMatches c2f)) c2outA.inventory_item_id ∧
      c2outA.balance_quantity =
        c2outA.total_received_quantity - c2outA.total_distributed_quantity :=
  distributionSummary_fields_crossed c2f [c2dist] [c2log] c2outA (by decide)

/-! ### C2 -/

/-- C2: every `getDistributionSummary` row's balance equals the sum of
the matching class distributions' quantities minus the sum of the
matching received student collections' quantities for its item, and
every item occurring in either filtered source set gets a row. -/
theorem getDistributionSummary_balance (f : Filters) (dists : List Distribution)
    (logs : List StudentLog) :
    (∀ s ∈ getDistributionSummary f dists logs,
        s.balance_quantity =
          sumDistFor (dists.filter (distMatches f)) s.inventory_item_id -
            sumLogFor (logs.filter (logMatches f)) s.inventory_item_id) ∧
      (∀ key : String,
        ((dists.filter (distMatches f)).any (fun d => d.inventory_item_id == key) = true ∨
          (logs.filter (logMatches f)).any (fun l => l.inventory_item_id == key) = true) →
        ∃ s ∈ getDistributionSummary f dists logs, s.inventory_item_id = key) := by
  constructor
  · intro s hs
    rcases getDistributionSummary_mem_spec f dists logs s hs with ⟨h1, h2, h3⟩
    rw [h3, h1, h2]
  · intro key hkey
    have hiso : (findSummary (getDistributionSummary f dists logs) key).isSome = true := by
      simp only [getDistributionSummary]
      rw [isSome_computeBalance, isSome_foldl_stepLog, isSome_foldl_stepDist]
      have hbase : (findSummary ([] : List DistributionSummary) key).isSome = false := rfl
      rw [hbase]
      rcases hkey with h | h
      · rw [h]
        simp
      · rw [h]
        simp
    cases hfs : findSummary (getDistributionSummary f dists logs) key with
    | none => rw [hfs] at hiso; cases hiso
    | some s =>
      exact ⟨s, List.mem_of_find?_eq_some hfs, findSummary_key _ _ _ hfs⟩

/-- Witness for C2: item `B` occurs only on the collection side, yet
gets an output row. -/
theorem getDistributionSummary_balance_witness :
    ∃ s ∈ getDistributionSummary c2f [c2dist] [c2log], s.inventory_item_id = "B" :=
  (getDistributionSummary_balance c2f [c2dist] [c2log]).2 "B" (Or.inr (by decide))
